import Mathlib

/-!
Shallow embedding of the payment domain of the house-duties application
(src/services/paymentService.ts with the Prisma schema), together with
proofs about its payment generation, overdue sweep, summary aggregation
and month-comparison logic.

Conventions of the embedding:
* Timestamps are integers, milliseconds from the first instant of year 0
  of the proleptic Gregorian calendar on a timezone-free, DST-free
  timeline.  Only differences and comparisons of timestamps matter to the
  verified properties, so the epoch choice is irrelevant.
* mkDate models the JavaScript constructor
  new Date(year, monthIndex, day, hours, minutes, seconds, ms).getTime():
  the month index is zero-based and is normalised into the year, and an
  out-of-range day simply offsets from the first of the normalised month
  (ECMAScript MakeDay semantics), so day overflow rolls into the next
  month rather than clamping.
* Monetary amounts (DOUBLE PRECISION in the schema, number in TypeScript)
  are modelled as exact rationals; decimal literals of the source such as
  0.01 are the corresponding rationals.
* Prisma calls are modelled as pure operations on an explicit Store value:
  findMany/findFirst become list filters and searches, create appends a
  row (ids are drawn from a counter, modelling cuid generation), update
  and updateMany map over the rows.  Result ordering clauses (orderBy) are
  omitted: no verified property depends on presentation order.
* createdAt and updatedAt columns are ORM bookkeeping never read by the
  service logic and are omitted from the row types.
-/

namespace HouseDuties

/-- Gregorian leap year test. -/
def isLeapYear (y : Int) : Bool :=
  (y % 4 == 0 && y % 100 != 0) || y % 400 == 0

/-- Number of days of the 1-based month m of year y. -/
def daysInMonth (y : Int) (m : Int) : Int :=
  if m = 2 then (if isLeapYear y then 29 else 28)
  else if m = 4 ∨ m = 6 ∨ m = 9 ∨ m = 11 then 30
  else 31

/-- Days from the epoch (first instant of year 0) to the first instant of
year y: 365 per year plus one per leap year in between. -/
def daysBeforeYear (y : Int) : Int :=
  365 * y + (y + 3).fdiv 4 - (y + 99).fdiv 100 + (y + 399).fdiv 400

/-- Days from the first of January of year y to the first of the month
with zero-based index m0 (so m0 = 0 yields 0). -/
def cumDaysBefore (y : Int) : Nat → Int
  | 0 => 0
  | n + 1 => cumDaysBefore y n + daysInMonth y (n + 1)

/-- Millisecond timestamp of
new Date(year, monthIndex, day, h, mi, s, ms) on the embedded timeline.
The zero-based monthIndex is normalised into the year; the day offsets
from the first of the normalised month, so values outside the month roll
over exactly as in ECMAScript. -/
def mkDate (year monthIndex day h mi s ms : Int) : Int :=
  let y := year + monthIndex.fdiv 12
  let m0 := (monthIndex.fmod 12).toNat
  (daysBeforeYear y + cumDaysBefore y m0 + (day - 1)) * 86400000
    + h * 3600000 + mi * 60000 + s * 1000 + ms

/-- Enum PaymentStatus of the Prisma schema. -/
inductive PaymentStatus
  | PENDING
  | PAID
  | OVERDUE
deriving DecidableEq

/-- Enum BillType of the Prisma schema. -/
inductive BillType
  | RENT
  | ELECTRICITY
  | WATER
  | GAS
  | INTERNET
  | PHONE
  | OTHER
deriving DecidableEq

/-- Row of the bills table (createdAt/updatedAt omitted, see header). -/
structure Bill where
  id : String
  name : String
  billType : BillType
  amount : ℚ
  dueDay : Int
  description : Option String
  active : Bool
deriving DecidableEq

/-- Row of the payments table (createdAt/updatedAt omitted, see header).
dueDate and paidDate are millisecond timestamps. -/
structure Payment where
  id : String
  billId : String
  amount : ℚ
  status : PaymentStatus
  dueDate : Int
  paidDate : Option Int
  notes : Option String
deriving DecidableEq

/-- The database state seen by PaymentService: the two tables plus the id
counter modelling cuid generation for created payments. -/
structure Store where
  bills : List Bill
  payments : List Payment
  nextId : Nat
deriving DecidableEq

/-- interface CreatePaymentInput. -/
structure CreatePaymentInput where
  billId : String
  amount : ℚ
  dueDate : Int
  notes : Option String := none
deriving DecidableEq

/-- interface UpdatePaymentInput: every field optional, absent fields are
left untouched by the update. -/
structure UpdatePaymentInput where
  amount : Option ℚ := none
  status : Option PaymentStatus := none
  paidDate : Option Int := none
  notes : Option String := none
deriving DecidableEq

/-- PaymentService.createPayment: prisma.payment.create with the input
data; status and paidDate come from the schema defaults PENDING and NULL. -/
def createPayment (input : CreatePaymentInput) (s : Store) : Payment × Store :=
  let p : Payment :=
    { id := toString s.nextId
      billId := input.billId
      amount := input.amount
      status := PaymentStatus.PENDING
      dueDate := input.dueDate
      paidDate := none
      notes := input.notes }
  (p, { s with payments := s.payments ++ [p], nextId := s.nextId + 1 })

/-- Application of an UpdatePaymentInput to one row (prisma update data). -/
def applyUpdate (input : UpdatePaymentInput) (p : Payment) : Payment :=
  { p with
      amount := input.amount.getD p.amount
      status := input.status.getD p.status
      paidDate := match input.paidDate with
        | some d => some d
        | none => p.paidDate
      notes := match input.notes with
        | some n => some n
        | none => p.notes }

/-- PaymentService.updatePayment: prisma.payment.update on the row with
the given id. -/
def updatePayment (id : String) (input : UpdatePaymentInput) (s : Store) : Store :=
  { s with payments := s.payments.map (fun p => if p.id = id then applyUpdate input p else p) }

/-- PaymentService.markAsPaid: updatePayment with status PAID and
paidDate the given date, defaulting to now (paidDate || new Date()). -/
def markAsPaid (id : String) (paidDate : Option Int) (now : Int) (s : Store) : Store :=
  updatePayment id { status := some PaymentStatus.PAID, paidDate := some (paidDate.getD now) } s

/-- Per-bill step of generateMonthlyPayments: findFirst a payment of this
bill with dueDate in [lo, hi); when none exists, create one with the
snapshotted amount and dueDate new Date(year, month - 1, bill.dueDay). -/
def genStep (year month lo hi : Int) (acc : List Payment × Store) (bill : Bill) :
    List Payment × Store :=
  match acc.2.payments.find?
      (fun p => decide (p.billId = bill.id ∧ lo ≤ p.dueDate ∧ p.dueDate < hi)) with
  | some _ => acc
  | none =>
      let dueDate := mkDate year (month - 1) bill.dueDay 0 0 0 0
      let r := createPayment
        { billId := bill.id, amount := bill.amount, dueDate := dueDate } acc.2
      (acc.1 ++ [r.1], r.2)

/-- PaymentService.generateMonthlyPayments: for every active bill, skip
when a payment with dueDate in
[new Date(year, month - 1, 1), new Date(year, month, 1)) already exists,
otherwise create one; returns the list of created payments. -/
def generateMonthlyPayments (year month : Int) (s : Store) : List Payment × Store :=
  let lo := mkDate year (month - 1) 1 0 0 0 0
  let hi := mkDate year month 1 0 0 0 0
  (s.bills.filter (fun b => b.active)).foldl (genStep year month lo hi) ([], s)

/-- PaymentService.updateOverduePayments: updateMany setting status
OVERDUE on every row with status PENDING and dueDate before now; returns
the matched-row count. -/
def updateOverduePayments (now : Int) (s : Store) : Nat × Store :=
  ((s.payments.filter (fun p => decide (p.status = PaymentStatus.PENDING ∧ p.dueDate < now))).length,
   { s with payments := s.payments.map (fun p =>
       if p.status = PaymentStatus.PENDING ∧ p.dueDate < now
       then { p with status := PaymentStatus.OVERDUE } else p) })

/-- PaymentService.getPaymentsByMonth: rows with
new Date(year, month - 1, 1) <= dueDate <= new Date(year, month, 0, 23, 59, 59). -/
def getPaymentsByMonth (year month : Int) (s : Store) : List Payment :=
  let startDate := mkDate year (month - 1) 1 0 0 0 0
  let endDate := mkDate year month 0 23 59 59 0
  s.payments.filter (fun p => decide (startDate ≤ p.dueDate ∧ p.dueDate ≤ endDate))

/-- The four sums returned by getPaymentsSummary. -/
structure Summary where
  total : ℚ
  paid : ℚ
  pending : ℚ
  overdue : ℚ
deriving DecidableEq

/-- Body of the forEach of getPaymentsSummary: add the amount to total
and to the bucket matching the status. -/
def summaryStep (acc : Summary) (p : Payment) : Summary :=
  let acc1 := { acc with total := acc.total + p.amount }
  if p.status = PaymentStatus.PAID then { acc1 with paid := acc1.paid + p.amount }
  else if p.status = PaymentStatus.PENDING then { acc1 with pending := acc1.pending + p.amount }
  else if p.status = PaymentStatus.OVERDUE then { acc1 with overdue := acc1.overdue + p.amount }
  else acc1

/-- PaymentService.getPaymentsSummary: fold the month selection into the
four sums starting from zero. -/
def getPaymentsSummary (year month : Int) (s : Store) : Summary :=
  (getPaymentsByMonth year month s).foldl summaryStep ⟨0, 0, 0, 0⟩

/-- The while loop of calculatePreviousMonths handling the year boundary:
while targetMonth < 1, add 12 to it and subtract 1 from the year.  The
pair is returned as (month, year) in loop order. -/
def normalizeMonth (month year : Int) : Int × Int :=
  if month < 1 then normalizeMonth (month + 12) (year - 1) else (month, year)
  termination_by (1 - month).toNat
  decreasing_by simp_wf; omega

/-- PaymentService.calculatePreviousMonths: for i from count - 1 down to
0, push the normalised pair for month - i; pairs are (year, month),
oldest first. -/
def calculatePreviousMonths (year month : Int) (count : Nat) : List (Int × Int) :=
  (List.range count).reverse.map (fun i =>
    let r := normalizeMonth (month - (i : Int)) year
    (r.2, r.1))

/-- The trend field of a comparison metric. -/
inductive Trend
  | up
  | down
  | stable
deriving DecidableEq

/-- interface ComparisonMetric; percentageChange is null exactly when the
Option is none. -/
structure ComparisonMetric where
  metricName : String
  values : List ℚ
  change : ℚ
  percentageChange : Option ℚ
  trend : Trend
deriving DecidableEq

/-- createMetric of calculateComparisonMetrics: previousValue and
currentValue are values[1] and values[2] (every caller passes three
values), change their difference, percentageChange null when
previousValue is 0, and trend stable when the absolute change is below
the 0.01 epsilon, else up or down by the sign of the change. -/
def createMetric (metricName : String) (values : List ℚ) : ComparisonMetric :=
  let previousValue := values.getD 1 0
  let currentValue := values.getD 2 0
  let change := currentValue - previousValue
  let percentageChange : Option ℚ :=
    if previousValue ≠ 0 then some (change / previousValue * 100) else none
  let trend : Trend :=
    if |change| < 1 / 100 then Trend.stable
    else if change > 0 then Trend.up
    else Trend.down
  { metricName := metricName
    values := values
    change := change
    percentageChange := percentageChange
    trend := trend }

/-- The four metrics of PaymentComparison (month labels are presentation
and omitted). -/
structure ComparisonMetrics where
  total : ComparisonMetric
  paid : ComparisonMetric
  pending : ComparisonMetric
  overdue : ComparisonMetric
deriving DecidableEq

/-- PaymentService.calculateComparisonMetrics over the three chronological
summaries. -/
def calculateComparisonMetrics (summaries : List Summary) : ComparisonMetrics :=
  { total := createMetric "Total" (summaries.map Summary.total)
    paid := createMetric "Paid" (summaries.map Summary.paid)
    pending := createMetric "Pending" (summaries.map Summary.pending)
    overdue := createMetric "Overdue" (summaries.map Summary.overdue) }

/-! Lemmas about the summary fold. -/

lemma summaryStep_total (acc : Summary) (p : Payment) :
    (summaryStep acc p).total = acc.total + p.amount := by
  cases h : p.status <;> simp [summaryStep, h]

lemma summaryStep_paid (acc : Summary) (p : Payment) :
    (summaryStep acc p).paid
      = acc.paid + (if p.status = PaymentStatus.PAID then p.amount else 0) := by
  cases h : p.status <;> simp [summaryStep, h]

lemma summaryStep_pending (acc : Summary) (p : Payment) :
    (summaryStep acc p).pending
      = acc.pending + (if p.status = PaymentStatus.PENDING then p.amount else 0) := by
  cases h : p.status <;> simp [summaryStep, h]

lemma summaryStep_overdue (acc : Summary) (p : Payment) :
    (summaryStep acc p).overdue
      = acc.overdue + (if p.status = PaymentStatus.OVERDUE then p.amount else 0) := by
  cases h : p.status <;> simp [summaryStep, h]

lemma foldl_summaryStep_total (ps : List Payment) :
    ∀ acc : Summary,
      (ps.foldl summaryStep acc).total = acc.total + (ps.map Payment.amount).sum := by
  induction ps with
  | nil => intro acc; simp
  | cons p ps ih =>
      intro acc
      simp only [List.foldl_cons, List.map_cons, List.sum_cons, ih, summaryStep_total]
      ring

lemma foldl_summaryStep_paid (ps : List Payment) :
    ∀ acc : Summary,
      (ps.foldl summaryStep acc).paid
        = acc.paid
          + ((ps.filter (fun p => decide (p.status = PaymentStatus.PAID))).map
              Payment.amount).sum := by
  induction ps with
  | nil => intro acc; simp
  | cons p ps ih =>
      intro acc
      by_cases h : p.status = PaymentStatus.PAID <;>
        simp [List.foldl_cons, List.filter_cons, h, ih, summaryStep_paid] <;> ring

lemma foldl_summaryStep_pending (ps : List Payment) :
    ∀ acc : Summary,
      (ps.foldl summaryStep acc).pending
        = acc.pending
          + ((ps.filter (fun p => decide (p.status = PaymentStatus.PENDING))).map
              Payment.amount).sum := by
  induction ps with
  | nil => intro acc; simp
  | cons p ps ih =>
      intro acc
      by_cases h : p.status = PaymentStatus.PENDING <;>
        simp [List.foldl_cons, List.filter_cons, h, ih, summaryStep_pending] <;> ring

lemma foldl_summaryStep_overdue (ps : List Payment) :
    ∀ acc : Summary,
      (ps.foldl summaryStep acc).overdue
        = acc.overdue
          + ((ps.filter (fun p => decide (p.status = PaymentStatus.OVERDUE))).map
              Payment.amount).sum := by
  induction ps with
  | nil => intro acc; simp
  | cons p ps ih =>
      intro acc
      by_cases h : p.status = PaymentStatus.OVERDUE <;>
        simp [List.foldl_cons, List.filter_cons, h, ih, summaryStep_overdue] <;> ring

lemma sum_amount_status_split (ps : List Payment) :
    (ps.map Payment.amount).sum
      = ((ps.filter (fun p => decide (p.status = PaymentStatus.PAID))).map Payment.amount).sum
        + ((ps.filter (fun p => decide (p.status = PaymentStatus.PENDING))).map Payment.amount).sum
        + ((ps.filter (fun p => decide (p.status = PaymentStatus.OVERDUE))).map Payment.amount).sum := by
  induction ps with
  | nil => simp
  | cons p ps ih =>
      cases h : p.status <;> simp [List.filter_cons, h, ih] <;> ring

/-- C3: the summary of any (year, month) over any store counts every
selected payment once in total and once in exactly the bucket of its
status (PAID, PENDING or OVERDUE), so total = paid + pending + overdue
exactly. -/
theorem getPaymentsSummary_conservation (year month : Int) (s : Store) :
    (getPaymentsSummary year month s).total
        = ((getPaymentsByMonth year month s).map Payment.amount).sum
    ∧ (getPaymentsSummary year month s).paid
        = (((getPaymentsByMonth year month s).filter
            (fun p => decide (p.status = PaymentStatus.PAID))).map Payment.amount).sum
    ∧ (getPaymentsSummary year month s).pending
        = (((getPaymentsByMonth year month s).filter
            (fun p => decide (p.status = PaymentStatus.PENDING))).map Payment.amount).sum
    ∧ (getPaymentsSummary year month s).overdue
        = (((getPaymentsByMonth year month s).filter
            (fun p => decide (p.status = PaymentStatus.OVERDUE))).map Payment.amount).sum
    ∧ (getPaymentsSummary year month s).total
        = (getPaymentsSummary year month s).paid
          + (getPaymentsSummary year month s).pending
          + (getPaymentsSummary year month s).overdue := by
  have ht := foldl_summaryStep_total (getPaymentsByMonth year month s) ⟨0, 0, 0, 0⟩
  have hp := foldl_summaryStep_paid (getPaymentsByMonth year month s) ⟨0, 0, 0, 0⟩
  have hn := foldl_summaryStep_pending (getPaymentsByMonth year month s) ⟨0, 0, 0, 0⟩
  have ho := foldl_summaryStep_overdue (getPaymentsByMonth year month s) ⟨0, 0, 0, 0⟩
  have hsplit := sum_amount_status_split (getPaymentsByMonth year month s)
  refine ⟨?_, ?_, ?_, ?_, ?_⟩ <;>
    simp only [getPaymentsSummary, ht, hp, hn, ho] <;>
    simp [hsplit]

/-! Lemmas unfolding createMetric field by field. -/

lemma createMetric_change_def (metricName : String) (values : List ℚ) :
    (createMetric metricName values).change = values.getD 2 0 - values.getD 1 0 := rfl

lemma createMetric_pct_def (metricName : String) (values : List ℚ) :
    (createMetric metricName values).percentageChange
      = (if values.getD 1 0 ≠ 0
         then some ((values.getD 2 0 - values.getD 1 0) / values.getD 1 0 * 100)
         else none) := rfl

lemma createMetric_trend_def (metricName : String) (values : List ℚ) :
    (createMetric metricName values).trend
      = (if |values.getD 2 0 - values.getD 1 0| < 1 / 100 then Trend.stable
         else if 0 < values.getD 2 0 - values.getD 1 0 then Trend.up
         else Trend.down) := rfl

/-- C5: on three chronological values, the change of a metric is the
newest value minus the middle one (the oldest value never enters the
delta), the trend is stable exactly when the absolute change is below the
0.01 epsilon, and otherwise it is up exactly when the change is positive
and down exactly when it is negative. -/
theorem createMetric_change_trend (metricName : String) (v0 v1 v2 : ℚ) :
    (createMetric metricName [v0, v1, v2]).change = v2 - v1
    ∧ ((createMetric metricName [v0, v1, v2]).trend = Trend.stable ↔ |v2 - v1| < 1 / 100)
    ∧ (1 / 100 ≤ |v2 - v1| →
        ((createMetric metricName [v0, v1, v2]).trend = Trend.up ↔ 0 < v2 - v1)
        ∧ ((createMetric metricName [v0, v1, v2]).trend = Trend.down ↔ v2 - v1 < 0)) := by
  have hget1 : ([v0, v1, v2] : List ℚ).getD 1 0 = v1 := rfl
  have hget2 : ([v0, v1, v2] : List ℚ).getD 2 0 = v2 := rfl
  refine ⟨by rw [createMetric_change_def, hget1, hget2], ?_, ?_⟩
  · rw [createMetric_trend_def, hget1, hget2]
    constructor
    · intro heq
      by_contra hnot
      rw [if_neg hnot] at heq
      by_cases h2 : 0 < v2 - v1
      · rw [if_pos h2] at heq; exact Trend.noConfusion heq
      · rw [if_neg h2] at heq; exact Trend.noConfusion heq
    · intro h; rw [if_pos h]
  · intro hge
    have h : ¬ |v2 - v1| < 1 / 100 := not_lt.mpr hge
    rw [createMetric_trend_def, hget1, hget2, if_neg h]
    by_cases h2 : 0 < v2 - v1
    · rw [if_pos h2]
      refine ⟨⟨fun _ => h2, fun _ => rfl⟩, ⟨fun heq => Trend.noConfusion heq, fun hlt => absurd h2 (not_lt.mpr hlt.le)⟩⟩
    · have h3 : v2 - v1 < 0 := by
        rcases lt_or_eq_of_le (not_lt.mp h2) with h4 | h4
        · exact h4
        · exfalso; rw [h4] at hge; norm_num at hge
      rw [if_neg h2]
      exact ⟨⟨fun heq => Trend.noConfusion heq, fun hpos => absurd hpos h2⟩,
             ⟨fun _ => h3, fun _ => rfl⟩⟩

/-- Witness for C5 at the concrete pending sums [100, 200, 150] of the
spec scenario: change is -50 and the trend is down. -/
theorem createMetric_change_trend_witness :
    (createMetric "Total" [100, 200, 150]).change = -50
    ∧ (createMetric "Total" [100, 200, 150]).trend = Trend.down := by
  have h := createMetric_change_trend "Total" 100 200 150
  refine ⟨by rw [h.1]; norm_num, ?_⟩
  exact ((h.2.2 (by norm_num)).2).mpr (by norm_num)

/-- C4 counterexample: with middle value 0 and newest value 1/200 (which
is strictly positive), the code yields a stable trend, not the up trend
the claim requires for every positive newest value. -/
theorem createMetric_small_newest_not_up :
    ([(0 : ℚ), 0, 1 / 200].getD 1 0 = 0)
    ∧ (0 : ℚ) < [(0 : ℚ), 0, 1 / 200].getD 2 0
    ∧ (createMetric "Pending" [0, 0, 1 / 200]).percentageChange = none
    ∧ (createMetric "Pending" [0, 0, 1 / 200]).trend = Trend.stable
    ∧ (createMetric "Pending" [0, 0, 1 / 200]).trend ≠ Trend.up := by
  have hget1 : ([(0 : ℚ), 0, 1 / 200] : List ℚ).getD 1 0 = 0 := rfl
  have hget2 : ([(0 : ℚ), 0, 1 / 200] : List ℚ).getD 2 0 = 1 / 200 := rfl
  have htrend : (createMetric "Pending" [0, 0, 1 / 200]).trend = Trend.stable := by
    rw [createMetric_trend_def, hget1, hget2]
    rw [if_pos (show |(1 : ℚ) / 200 - 0| < 1 / 100 by
      rw [sub_zero, abs_of_pos (by norm_num : (0 : ℚ) < 1 / 200)]; norm_num)]
  refine ⟨hget1, by rw [hget2]; norm_num, ?_, htrend, ?_⟩
  · rw [createMetric_pct_def, hget1, hget2]; norm_num
  · rw [htrend]; exact fun heq => Trend.noConfusion heq

/-- C4 (amended): whenever the middle value of a metric is 0 the
percentage change is null (never a division); with middle 0 and newest 0
the trend is stable; with middle 0 and newest at least the 0.01 epsilon
the trend is up (for 0 < newest < 0.01 the trend is stable instead); and
with middle nonzero the percentage change is (change / middle) * 100. -/
theorem createMetric_divzero_safety (metricName : String) (v0 v1 v2 : ℚ) :
    (v1 = 0 → (createMetric metricName [v0, v1, v2]).percentageChange = none)
    ∧ (v1 = 0 → v2 = 0 →
        (createMetric metricName [v0, v1, v2]).percentageChange = none
        ∧ (createMetric metricName [v0, v1, v2]).trend = Trend.stable)
    ∧ (v1 = 0 → 1 / 100 ≤ v2 →
        (createMetric metricName [v0, v1, v2]).percentageChange = none
        ∧ (createMetric metricName [v0, v1, v2]).trend = Trend.up)
    ∧ (v1 ≠ 0 →
        (createMetric metricName [v0, v1, v2]).percentageChange
          = some ((v2 - v1) / v1 * 100)) := by
  have hget1 : ([v0, v1, v2] : List ℚ).getD 1 0 = v1 := rfl
  have hget2 : ([v0, v1, v2] : List ℚ).getD 2 0 = v2 := rfl
  refine ⟨?_, ?_, ?_, ?_⟩
  · intro h1
    rw [createMetric_pct_def, hget1, hget2]
    simp [h1]
  · intro h1 h2
    constructor
    · rw [createMetric_pct_def, hget1, hget2]; simp [h1]
    · rw [createMetric_trend_def, hget1, hget2, h1, h2]
      norm_num
  · intro h1 h2
    have hpos : (0 : ℚ) < v2 := lt_of_lt_of_le (by norm_num) h2
    constructor
    · rw [createMetric_pct_def, hget1, hget2]; simp [h1]
    · rw [createMetric_trend_def, hget1, hget2, h1, sub_zero]
      rw [if_neg (by rw [abs_of_pos hpos]; exact not_lt.mpr h2), if_pos hpos]
  · intro h1
    rw [createMetric_pct_def, hget1, hget2]
    simp [h1]

/-- Witness for C4 (amended) at middle 0 and newest 3: percentage change
null and trend up. -/
theorem createMetric_divzero_witness :
    (createMetric "Paid" [5, 0, 3]).percentageChange = none
    ∧ (createMetric "Paid" [5, 0, 3]).trend = Trend.up :=
  (createMetric_divzero_safety "Paid" 5 0 3).2.2.1 rfl (by norm_num)

/-! Lemmas about the month-normalisation loop. -/

lemma normalizeMonth_step (month year : Int) (h : month < 1) :
    normalizeMonth month year = normalizeMonth (month + 12) (year - 1) := by
  rw [normalizeMonth]
  exact if_pos h

lemma normalizeMonth_base (month year : Int) (h : ¬ month < 1) :
    normalizeMonth month year = (month, year) := by
  rw [normalizeMonth]
  exact if_neg h

lemma calculatePreviousMonths_three_eq (year month : Int) :
    calculatePreviousMonths year month 3 =
      [((normalizeMonth (month - 2) year).2, (normalizeMonth (month - 2) year).1),
       ((normalizeMonth (month - 1) year).2, (normalizeMonth (month - 1) year).1),
       ((normalizeMonth (month - 0) year).2, (normalizeMonth (month - 0) year).1)] := rfl

/-- C7: for every target month between 1 and 12, the comparison engine
produces exactly the target (year, month) pair preceded, oldest first, by
the two calendar months before it, rolling the year back across January:
month 1 is preceded by months 11 and 12 of the previous year, and month 2
by month 12 of the previous year and month 1 of the target year. -/
theorem calculatePreviousMonths_three (year month : Int)
    (h1 : 1 ≤ month) (h2 : month ≤ 12) :
    calculatePreviousMonths year month 3 =
      if month = 1 then [(year - 1, 11), (year - 1, 12), (year, 1)]
      else if month = 2 then [(year - 1, 12), (year, 1), (year, 2)]
      else [(year, month - 2), (year, month - 1), (year, month)] := by
  rw [calculatePreviousMonths_three_eq]
  interval_cases month <;>
    norm_num [normalizeMonth_step, normalizeMonth_base]

/-- Witness for C7 at the January rollover: the three pairs for (2024, 1)
are (2023, 11), (2023, 12) and (2024, 1), oldest first. -/
theorem calculatePreviousMonths_witness :
    calculatePreviousMonths 2024 1 3 = [(2023, 11), (2023, 12), (2024, 1)] := by
  have h := calculatePreviousMonths_three 2024 1 (by norm_num) (by norm_num)
  rw [h, if_pos rfl]
  norm_num

/-- C6: the overdue sweep returns the number of payments with status
PENDING and dueDate strictly before now, keeps the bills and the number
of payments unchanged, maps exactly the matching payments to OVERDUE
while leaving every other payment untouched, and in particular never
changes a PAID payment, never produces a PENDING payment that differs
from its pre-state, and never moves an OVERDUE payment away from
OVERDUE. -/
theorem updateOverduePayments_spec (now : Int) (s : Store) :
    (updateOverduePayments now s).1
        = (s.payments.filter
            (fun p => decide (p.status = PaymentStatus.PENDING ∧ p.dueDate < now))).length
    ∧ (updateOverduePayments now s).2.bills = s.bills
    ∧ (updateOverduePayments now s).2.payments.length = s.payments.length
    ∧ (∀ (i : ℕ) (p : Payment), s.payments[i]? = some p →
        (updateOverduePayments now s).2.payments[i]?
          = some (if p.status = PaymentStatus.PENDING ∧ p.dueDate < now
                  then { p with status := PaymentStatus.OVERDUE } else p))
    ∧ (∀ (i : ℕ) (p q : Payment), s.payments[i]? = some p →
        (updateOverduePayments now s).2.payments[i]? = some q →
        (p.status = PaymentStatus.PAID → q = p)
        ∧ (q.status = PaymentStatus.PENDING → q = p)
        ∧ (p.status = PaymentStatus.OVERDUE → q.status = PaymentStatus.OVERDUE)) := by
  have hmap : ∀ (i : ℕ) (p : Payment), s.payments[i]? = some p →
      (updateOverduePayments now s).2.payments[i]?
        = some (if p.status = PaymentStatus.PENDING ∧ p.dueDate < now
                then { p with status := PaymentStatus.OVERDUE } else p) := by
    intro i p hp
    show (s.payments.map _)[i]? = _
    rw [List.getElem?_map, hp]
    rfl
  refine ⟨rfl, rfl, by simp [updateOverduePayments], hmap, ?_⟩
  intro i p q hp hq
  rw [hmap i p hp] at hq
  have hq' : q = (if p.status = PaymentStatus.PENDING ∧ p.dueDate < now
      then { p with status := PaymentStatus.OVERDUE } else p) := by
    exact (Option.some.inj hq).symm
  by_cases hc : p.status = PaymentStatus.PENDING ∧ p.dueDate < now
  · rw [if_pos hc] at hq'
    refine ⟨fun hpaid => ?_, fun hpend => ?_, fun hov => ?_⟩
    · rw [hc.1] at hpaid; exact PaymentStatus.noConfusion hpaid
    · rw [hq'] at hpend; exact PaymentStatus.noConfusion hpend
    · rw [hc.1] at hov; exact PaymentStatus.noConfusion hov
  · rw [if_neg hc] at hq'
    refine ⟨fun _ => hq', fun _ => hq', fun hov => ?_⟩
    rw [hq', hov]

/-- Concrete payment used by the witnesses: pending, due at 50. -/
def c6Payment : Payment :=
  { id := "p1", billId := "b1", amount := 25, status := PaymentStatus.PENDING,
    dueDate := 50, paidDate := none, notes := none }

/-- One-payment store for the C6 witness. -/
def c6Store : Store := { bills := [], payments := [c6Payment], nextId := 0 }

/-- Witness for C6: sweeping at time 100 a store holding one pending
payment due at 50 turns exactly that payment OVERDUE. -/
theorem updateOverduePayments_witness :
    (updateOverduePayments 100 c6Store).2.payments[0]?
      = some { c6Payment with status := PaymentStatus.OVERDUE } := by
  have h := (updateOverduePayments_spec 100 c6Store).2.2.2.1 0 c6Payment rfl
  rw [h, if_pos ⟨rfl, by norm_num [c6Payment]⟩]

/-! The two month windows of the service.  The generation duplicate check
uses [new Date(y, m - 1, 1), new Date(y, m, 1)), while the month listing
used by the summary uses the inclusive upper bound
new Date(y, m, 0, 23, 59, 59), which is exactly one second before the
first instant of the next month. -/

lemma mkDate_day_zero (year month : Int) :
    mkDate year month 0 23 59 59 0 = mkDate year month 1 0 0 0 0 - 1000 := by
  unfold mkDate
  ring

/-- C9 (amended): getPaymentsByMonth selects exactly the stored payments
whose dueDate lies between the first instant of the month and 23:59:59.000
of its last day (one full second before the next month begins): dueDates
in the final 999 milliseconds of the last day are excluded, not included
as the claim states. -/
theorem getPaymentsByMonth_mem (year month : Int) (s : Store) (p : Payment) :
    p ∈ getPaymentsByMonth year month s ↔
      p ∈ s.payments
      ∧ mkDate year (month - 1) 1 0 0 0 0 ≤ p.dueDate
      ∧ p.dueDate ≤ mkDate year month 1 0 0 0 0 - 1000 := by
  unfold getPaymentsByMonth
  rw [List.mem_filter]
  simp [mkDate_day_zero, and_assoc]

/-- Payment due January 31 2024 at 23:59:59.500, inside the final second
of the month. -/
def lateJanPayment : Payment :=
  { id := "p9", billId := "b1", amount := 75, status := PaymentStatus.PENDING,
    dueDate := mkDate 2024 0 31 23 59 59 500, paidDate := none, notes := none }

/-- Store holding only lateJanPayment. -/
def lateJanStore : Store := { bills := [], payments := [lateJanPayment], nextId := 1 }

/-- C9 counterexample: the payment due January 31 2024 at 23:59:59.500
lies on the last day of January — at or after its first instant and
strictly before the first instant of February — yet getPaymentsByMonth
for (2024, 1) does not select it. -/
theorem getPaymentsByMonth_last_second_cex :
    getPaymentsByMonth 2024 1 lateJanStore = []
    ∧ mkDate 2024 0 31 0 0 0 0 ≤ lateJanPayment.dueDate
    ∧ lateJanPayment.dueDate < mkDate 2024 1 1 0 0 0 0 := by decide

/-- Active bill used by the C10 witness store. -/
def c10Bill : Bill :=
  { id := "b1", name := "Internet", billType := BillType.INTERNET, amount := 80,
    dueDay := 15, description := none, active := true }

/-- Payment of c10Bill due January 31 2024 at 23:59:59.500. -/
def c10Payment : Payment :=
  { id := "p10", billId := "b1", amount := 80, status := PaymentStatus.PENDING,
    dueDate := mkDate 2024 0 31 23 59 59 500, paidDate := none, notes := none }

/-- Store with the active bill and its late-January payment. -/
def c10Store : Store := { bills := [c10Bill], payments := [c10Payment], nextId := 1 }

/-- C10: the duplicate-check window of generateMonthlyPayments strictly
contains the selection window of getPaymentsByMonth: every dueDate the
month listing accepts also suppresses generation, and a payment due in
the final 999 milliseconds of January 2024 suppresses generation of a new
payment for its bill in that month while being absent from the month
listing and contributing nothing to the summary. -/
theorem generation_window_strictly_contains_listing_window :
    (∀ year month d : Int,
        mkDate year (month - 1) 1 0 0 0 0 ≤ d →
        d ≤ mkDate year month 0 23 59 59 0 →
        mkDate year (month - 1) 1 0 0 0 0 ≤ d ∧ d < mkDate year month 1 0 0 0 0)
    ∧ (generateMonthlyPayments 2024 1 c10Store).1 = []
    ∧ (generateMonthlyPayments 2024 1 c10Store).2 = c10Store
    ∧ getPaymentsByMonth 2024 1 c10Store = []
    ∧ getPaymentsSummary 2024 1 c10Store = ⟨0, 0, 0, 0⟩
    ∧ mkDate 2024 0 1 0 0 0 0 ≤ c10Payment.dueDate
    ∧ c10Payment.dueDate < mkDate 2024 1 1 0 0 0 0 := by
  refine ⟨?_, by decide⟩
  intro year month d h1 h2
  have h3 := mkDate_day_zero year month
  refine ⟨h1, ?_⟩
  rw [h3] at h2
  linarith

/-- Witness for C10: the middle of January 2024 lies in the listing
window, hence also strictly inside the generation window. -/
theorem generation_window_witness :
    mkDate 2024 (1 - 1) 1 0 0 0 0 ≤ mkDate 2024 0 15 0 0 0 0
    ∧ mkDate 2024 0 15 0 0 0 0 < mkDate 2024 1 1 0 0 0 0 :=
  generation_window_strictly_contains_listing_window.1 2024 1
    (mkDate 2024 0 15 0 0 0 0) (by decide) (by decide)

/-- Recurring bill with dueDay 31, active. -/
def rentBill31 : Bill :=
  { id := "b1", name := "Rent", billType := BillType.RENT, amount := 1500,
    dueDay := 31, description := none, active := true }

/-- Store with the dueDay-31 bill and no payments. -/
def rentStore31 : Store := { bills := [rentBill31], payments := [], nextId := 0 }

/-- C1 (code bug): generateMonthlyPayments does not clamp an overlong
dueDay.  With a dueDay-31 bill, the April 2024 run creates a payment
dated the first instant of May 2024 — outside the half-open April window
and different from the April 30 the claim requires — and the February
2024 run creates a payment dated March 2 2024 instead of February 29. -/
theorem generate_dueDate_rolls_over :
    ((generateMonthlyPayments 2024 4 rentStore31).1.map Payment.dueDate
      = [mkDate 2024 4 1 0 0 0 0])
    ∧ ¬ (mkDate 2024 3 1 0 0 0 0 ≤ mkDate 2024 4 1 0 0 0 0
          ∧ mkDate 2024 4 1 0 0 0 0 < mkDate 2024 4 1 0 0 0 0)
    ∧ mkDate 2024 4 1 0 0 0 0 ≠ mkDate 2024 3 30 0 0 0 0
    ∧ ((generateMonthlyPayments 2024 2 rentStore31).1.map Payment.dueDate
      = [mkDate 2024 2 2 0 0 0 0])
    ∧ ¬ (mkDate 2024 1 1 0 0 0 0 ≤ mkDate 2024 2 2 0 0 0 0
          ∧ mkDate 2024 2 2 0 0 0 0 < mkDate 2024 2 1 0 0 0 0)
    ∧ mkDate 2024 2 2 0 0 0 0 ≠ mkDate 2024 1 29 0 0 0 0 := by decide

/-- C2 (code bug): with one active dueDay-31 bill, generating April 2024
twice is not idempotent: the first run creates one payment (dated May 1
2024 by rollover, outside the April duplicate-check window), so the
second run creates another payment instead of returning an empty list,
leaving two stored payments. -/
theorem generate_not_idempotent :
    ((generateMonthlyPayments 2024 4 rentStore31).1.length = 1)
    ∧ ((generateMonthlyPayments 2024 4
        (generateMonthlyPayments 2024 4 rentStore31).2).1.length = 1)
    ∧ ((generateMonthlyPayments 2024 4
        (generateMonthlyPayments 2024 4 rentStore31).2).2.payments.length = 2)
    ∧ (generateMonthlyPayments 2024 4 rentStore31).2.payments.length = 1 := by decide

/-! Reachability through the payment operations of the service.  The
initial state may hold any bills, since bill management never writes the
payments table. -/

/-- States reachable through all five payment operations, including
updatePayment with an arbitrary partial input. -/
inductive Reachable : Store → Prop
  | init (bs : List Bill) : Reachable { bills := bs, payments := [], nextId := 0 }
  | create (i : CreatePaymentInput) (s : Store) :
      Reachable s → Reachable (createPayment i s).2
  | generate (y m : Int) (s : Store) :
      Reachable s → Reachable (generateMonthlyPayments y m s).2
  | update (id : String) (input : UpdatePaymentInput) (s : Store) :
      Reachable s → Reachable (updatePayment id input s)
  | markPaid (id : String) (d : Option Int) (now : Int) (s : Store) :
      Reachable s → Reachable (markAsPaid id d now s)
  | sweep (now : Int) (s : Store) :
      Reachable s → Reachable (updateOverduePayments now s).2

/-- States reachable without raw updatePayment calls: only createPayment,
generateMonthlyPayments, markAsPaid and updateOverduePayments. -/
inductive ReachableSafe : Store → Prop
  | init (bs : List Bill) : ReachableSafe { bills := bs, payments := [], nextId := 0 }
  | create (i : CreatePaymentInput) (s : Store) :
      ReachableSafe s → ReachableSafe (createPayment i s).2
  | generate (y m : Int) (s : Store) :
      ReachableSafe s → ReachableSafe (generateMonthlyPayments y m s).2
  | markPaid (id : String) (d : Option Int) (now : Int) (s : Store) :
      ReachableSafe s → ReachableSafe (markAsPaid id d now s)
  | sweep (now : Int) (s : Store) :
      ReachableSafe s → ReachableSafe (updateOverduePayments now s).2

lemma createPayment_payments (i : CreatePaymentInput) (s : Store) :
    (createPayment i s).2.payments = s.payments ++ [(createPayment i s).1] := rfl

lemma createPayment_fst_status (i : CreatePaymentInput) (s : Store) :
    (createPayment i s).1.status = PaymentStatus.PENDING := rfl

lemma createPayment_fst_paidDate (i : CreatePaymentInput) (s : Store) :
    (createPayment i s).1.paidDate = none := rfl

/-- Every payment present after the generation fold was either already
stored or was freshly created with status PENDING and no paidDate. -/
lemma genFold_mem (year month lo hi : Int) (bills : List Bill) :
    ∀ (acc : List Payment × Store) (p : Payment),
      p ∈ (bills.foldl (genStep year month lo hi) acc).2.payments →
      p ∈ acc.2.payments ∨ (p.status = PaymentStatus.PENDING ∧ p.paidDate = none) := by
  induction bills with
  | nil => intro acc p hp; exact Or.inl hp
  | cons b bs ih =>
      intro acc p hp
      rw [List.foldl_cons] at hp
      rcases ih (genStep year month lo hi acc b) p hp with h1 | h1
      · rcases hmatch : acc.2.payments.find?
            (fun q => decide (q.billId = b.id ∧ lo ≤ q.dueDate ∧ q.dueDate < hi)) with _ | q
        · simp only [genStep, hmatch] at h1
          rw [createPayment_payments] at h1
          rcases List.mem_append.mp h1 with h2 | h2
          · exact Or.inl h2
          · rw [List.mem_singleton] at h2
            subst h2
            exact Or.inr ⟨createPayment_fst_status _ _, createPayment_fst_paidDate _ _⟩
        · simp only [genStep, hmatch] at h1
          exact Or.inl h1
      · exact Or.inr h1

lemma generateMonthlyPayments_mem (y m : Int) (s : Store) (p : Payment) :
    p ∈ (generateMonthlyPayments y m s).2.payments →
    p ∈ s.payments ∨ (p.status = PaymentStatus.PENDING ∧ p.paidDate = none) := by
  intro hp
  unfold generateMonthlyPayments at hp
  exact genFold_mem _ _ _ _ _ ([], s) p hp

/-- Input of the counterexample chain: one payment for bill b1. -/
def cpInput : CreatePaymentInput := { billId := "b1", amount := 10, dueDate := 0 }

/-- Store after creating that payment in an empty store. -/
def storeA : Store := (createPayment cpInput { bills := [], payments := [], nextId := 0 }).2

/-- Store after updatePayment sets status PAID with no paidDate. -/
def storeB : Store := updatePayment "0" { status := some PaymentStatus.PAID } storeA

/-- The payment of storeB: status PAID yet paidDate still null. -/
def violatingPayment : Payment :=
  { id := "0", billId := "b1", amount := 10, status := PaymentStatus.PAID,
    dueDate := 0, paidDate := none, notes := none }

/-- C8 counterexample: the claimed invariant fails over the five listed
operations: after createPayment and then updatePayment with the partial
input setting only status PAID, the reachable store holds a payment whose
status is PAID while paidDate is still null. -/
theorem paidDate_iff_paid_cex :
    ¬ (∀ s : Store, Reachable s → ∀ p ∈ s.payments,
        (p.paidDate ≠ none ↔ p.status = PaymentStatus.PAID)) := by
  intro h
  have hreach : Reachable storeB :=
    Reachable.update "0" { status := some PaymentStatus.PAID } storeA
      (Reachable.create cpInput { bills := [], payments := [], nextId := 0 }
        (Reachable.init []))
  have hmem : violatingPayment ∈ storeB.payments := by decide
  have hiff := h storeB hreach violatingPayment hmem
  exact (hiff.mpr rfl) rfl

/-- C8 (amended): along every state reachable through createPayment,
generateMonthlyPayments, markAsPaid and updateOverduePayments — that is,
excluding raw updatePayment calls, whose partial input can set status
PAID without a paidDate or vice versa — every stored payment has paidDate
set if and only if its status is PAID. -/
theorem paidDate_iff_paid (s : Store) (h : ReachableSafe s) :
    ∀ p ∈ s.payments, (p.paidDate ≠ none ↔ p.status = PaymentStatus.PAID) := by
  induction h with
  | init bs => intro p hp; exact absurd hp (List.not_mem_nil p)
  | create i s hs ih =>
      intro p hp
      rw [createPayment_payments] at hp
      rcases List.mem_append.mp hp with h1 | h1
      · exact ih p h1
      · rw [List.mem_singleton] at h1
        subst h1
        rw [createPayment_fst_paidDate, createPayment_fst_status]
        simp
  | generate y m s hs ih =>
      intro p hp
      rcases generateMonthlyPayments_mem y m s p hp with h1 | h1
      · exact ih p h1
      · rw [h1.1, h1.2]
        simp
  | markPaid id d now s hs ih =>
      intro p hp
      simp only [markAsPaid, updatePayment] at hp
      rcases List.mem_map.mp hp with ⟨q, hq, hfq⟩
      by_cases hid : q.id = id
      · rw [if_pos hid] at hfq
        subst hfq
        refine ⟨fun _ => rfl, fun _ hc => ?_⟩
        exact Option.noConfusion hc
      · rw [if_neg hid] at hfq
        subst hfq
        exact ih q hq
  | sweep now s hs ih =>
      intro p hp
      simp only [updateOverduePayments] at hp
      rcases List.mem_map.mp hp with ⟨q, hq, hfq⟩
      by_cases hc : q.status = PaymentStatus.PENDING ∧ q.dueDate < now
      · rw [if_pos hc] at hfq
        subst hfq
        have hnone : q.paidDate = none := by
          by_contra hne
          have hpaid := (ih q hq).mp hne
          rw [hc.1] at hpaid
          exact PaymentStatus.noConfusion hpaid
        refine ⟨fun hne => absurd hnone hne, fun hst => PaymentStatus.noConfusion hst⟩
      · rw [if_neg hc] at hfq
        subst hfq
        exact ih q hq

/-- Store after marking the storeA payment paid at time 42. -/
def paidStore : Store := markAsPaid "0" none 42 storeA

/-- The marked payment: status PAID and paidDate 42. -/
def paidPayment : Payment :=
  { id := "0", billId := "b1", amount := 10, status := PaymentStatus.PAID,
    dueDate := 0, paidDate := some 42, notes := none }

/-- Witness for C8 (amended) along the chain create then markAsPaid: the
resulting PAID payment indeed has a non-null paidDate. -/
theorem paidDate_iff_paid_witness : paidPayment.paidDate ≠ none :=
  (paidDate_iff_paid paidStore
    (ReachableSafe.markPaid "0" none 42 storeA
      (ReachableSafe.create cpInput { bills := [], payments := [], nextId := 0 }
        (ReachableSafe.init [])))
    paidPayment (by decide)).mpr rfl

end HouseDuties
